import Mathlib

/-!
Verification of the FPLOptimizer backend core against its specification.

The development shallowly embeds the core computations of the backend:

* `calcExpectedPoints` — `ExpectedPointsService._calculate_player_expected_points`
  (src/backend/app/services/expected_points_service.py), over exact rationals.
* selling prices and total budget — `TransferSolverService._calculate_selling_prices`
  and `_calculate_total_budget` (src/backend/app/services/transfer_solver_service.py).
* `calculateFreeTransfers` — `TeamRepository._calculate_free_transfers`
  (src/backend/app/repositories/team_repository.py).
* `modelConstraints` — the CVXPY constraint system built by
  `TransferSolverService._solve_cvxpy_model`.
* `extractPlan` — the free-transfer bookkeeping of
  `TransferSolverService._extract_transfer_plan`.
* `solversToTry` / `runSolvers` — the backend-selection loop of `_solve_cvxpy_model`.

Python floats are modelled by exact rationals; `round(x, 1)` is modelled as
rounding `10*x` to the nearest integer (Python's float rounding agrees except at
exact decimal ties, which are not representable in binary floats anyway).
Python integers are modelled by `ℤ` (with `Int.fdiv` for `//`).
-/

/-! ## Computable helpers
`qmin`/`qmax` are Python's `min`/`max` on exact rationals, written with `if` so
that the kernel can evaluate them on concrete inputs; they agree with Mathlib's
lattice operations (`qmin_eq_min`, `qmax_eq_max` below). -/

def qmin (a b : ℚ) : ℚ := if a ≤ b then a else b

def qmax (a b : ℚ) : ℚ := if b ≤ a then a else b

theorem qmin_eq_min (a b : ℚ) : qmin a b = min a b := by
  simp [qmin, min_def]

theorem qmax_eq_max (a b : ℚ) : qmax a b = max a b := by
  unfold qmax
  rcases le_or_lt b a with h | h
  · rw [if_pos h, max_eq_left h]
  · rw [if_neg (not_le.mpr h), max_eq_right h.le]

/-! ## Expected-points engine
Embedding of `_calculate_player_expected_points`.  A player record carries the
fields read from the bootstrap dictionary; a fixture record carries the fields
read from the fixtures list. -/

structure PlayerData where
  form : ℚ
  minutes : ℤ
  starts : ℤ
  element_type : ℤ
  team : ℤ
  xg : ℚ
  xa : ℚ
  xgi : ℚ
  xgc : ℚ

structure FixtureData where
  team_h : ℤ
  team_a : ℤ
  team_h_difficulty : ℤ
  team_a_difficulty : ℤ

/-- Embeds `games_played = max(games_played, 1)` (after the zero guard). -/
def gamesPlayed (p : PlayerData) : ℤ := max p.starts 1

/-- Embeds `avg_minutes_per_game = minutes / games_played`. -/
def avgMinutes (p : PlayerData) : ℚ := (p.minutes : ℚ) / ((gamesPlayed p : ℤ) : ℚ)

/-- Embeds `base_score`: form, or the underlying-stats fallback when form is 0 and
the player is a regular starter. -/
def baseScore (p : PlayerData) : ℚ :=
  if p.form = 0 ∧ avgMinutes p > 60 then
    if p.element_type = 3 ∨ p.element_type = 4 then
      let xgi_per_game : ℚ := if p.xgi > 0 then p.xgi / ((gamesPlayed p : ℤ) : ℚ) else 0
      qmax 1.5 (qmin (xgi_per_game * 5) 3.0)
    else 2.0
  else p.form

/-- Embeds `fixture_multiplier`: `1.0` when there is no fixture, otherwise
`1.0 + (3 - difficulty) * 0.15` with the difficulty of the player's side. -/
def fixtureMultiplier (p : PlayerData) : Option FixtureData → ℚ
  | none => 1.0
  | some f =>
    let d : ℤ := if f.team_h = p.team then f.team_h_difficulty else f.team_a_difficulty
    1.0 + ((3 - d : ℤ) : ℚ) * 0.15

/-- Embeds `home_multiplier`: `1.1` at home, `0.95` away, `1.0` when no fixture. -/
def homeAwayMultiplier (p : PlayerData) : Option FixtureData → ℚ
  | none => 1.0
  | some f => if f.team_h = p.team then 1.1 else 0.95

/-- Embeds `minutes_multiplier = 0.3 + (min(avg_minutes_per_game / 90, 1.0) * 0.7)`. -/
def minutesMultiplier (p : PlayerData) : ℚ :=
  0.3 + (qmin (avgMinutes p / 90) 1.0) * 0.7

/-- Embeds `underlying_adjustment`, position-specific. -/
def underlyingAdjustment (p : PlayerData) : ℚ :=
  if p.element_type = 3 ∨ p.element_type = 4 then
    let xgi_per_game : ℚ := p.xgi / ((gamesPlayed p : ℤ) : ℚ)
    qmax (-0.5) (qmin 1.0 (xgi_per_game - p.form * 0.5))
  else if p.element_type = 2 then
    let xgc_per_game : ℚ := p.xgc / ((gamesPlayed p : ℤ) : ℚ)
    let a : ℚ :=
      if xgc_per_game < 1.0 then (1.0 - xgc_per_game) * 0.5
      else if xgc_per_game > 1.2 then (1.2 - xgc_per_game) * 0.3
      else 0
    let xgi_per_game : ℚ := p.xgi / ((gamesPlayed p : ℤ) : ℚ)
    if xgi_per_game > 0.1 then a + xgi_per_game * 0.5 else a
  else if p.element_type = 1 then
    let xgc_per_game : ℚ := p.xgc / ((gamesPlayed p : ℤ) : ℚ)
    if xgc_per_game < 1.0 then (1.0 - xgc_per_game) * 0.8
    else if xgc_per_game > 1.5 then (1.5 - xgc_per_game) * 0.4
    else 0
  else 0

/-- Models Python `round(x, 1)` over ℚ: round `10*x` to the nearest integer
(`⌊10x + 1/2⌋`). -/
def roundTo1 (x : ℚ) : ℚ := ((⌊x * 10 + 1/2⌋ : ℤ) : ℚ) / 10

/-- Embeds `_calculate_player_expected_points(player, next_fixture, teams_lookup)`. -/
def calcExpectedPoints (p : PlayerData) (fx : Option FixtureData) : ℚ :=
  if p.starts = 0 ∨ p.minutes = 0 then 1.0
  else
    let ep1 : ℚ :=
      baseScore p * fixtureMultiplier p fx * homeAwayMultiplier p fx * minutesMultiplier p
    let ep2 : ℚ := qmin ep1 8.0
    let ep3 : ℚ := ep2 + qmax (-1.0) (qmin (underlyingAdjustment p) 1.5)
    let ep4 : ℚ := qmax 0.5 (qmin ep3 8.0)
    roundTo1 ep4

/-! ## Selling prices and total budget
Embedding of `_calculate_selling_prices` and `_calculate_total_budget`.
Prices are rationals in millions, as in the source (`now_cost / 10.0`).
The Python dict keyed by player id is modelled as an association list where
later inserts are consed on the front, so that lookup finds the most recent
binding, and `dict.get(pid, 0.0)` is `dictGet`. -/

structure PlayerRec where
  id : ℕ
  now_cost : ℤ

structure TeamPick where
  element : ℕ
  purchase_price : Option ℤ

/-- Models Python `pick.purchase_price or player.now_cost`: both `None` and `0`
fall back to the second operand. -/
def pyOr (a : Option ℤ) (b : ℤ) : ℤ :=
  match a with
  | none => b
  | some v => if v = 0 then b else v

/-- Computes the selling price of one pick, in millions; `0.0` when the player
is missing from the lookup (the loop body of `_calculate_selling_prices`). -/
def sellPrice (lookup : ℕ → Option PlayerRec) (pick : TeamPick) : ℚ :=
  match lookup pick.element with
  | none => 0
  | some player =>
    let current_price : ℚ := (player.now_cost : ℚ) / 10
    let purchase_price : ℚ := ((pyOr pick.purchase_price player.now_cost : ℤ) : ℚ) / 10
    if current_price ≥ purchase_price then
      purchase_price + (current_price - purchase_price) / 2
    else current_price

/-- Embeds `_calculate_selling_prices`: the dict built over the squad. -/
def calculateSellingPrices (squad : List TeamPick) (lookup : ℕ → Option PlayerRec) :
    List (ℕ × ℚ) :=
  squad.foldl (fun d pick => (pick.element, sellPrice lookup pick) :: d) []

/-- Models `selling_prices.get(player_id, 0.0)`. -/
def dictGet (d : List (ℕ × ℚ)) (k : ℕ) : ℚ :=
  ((d.find? (fun kv => kv.1 == k)).map Prod.snd).getD 0

/-- Embeds `_calculate_total_budget`: bank plus the looked-up selling price of
every pick. -/
def calculateTotalBudget (squad : List TeamPick) (d : List (ℕ × ℚ)) (bank : ℚ) : ℚ :=
  squad.foldl (fun total pick => total + dictGet d pick.element) bank

/-! ## Free-transfer ledger
Embedding of `TeamRepository._calculate_free_transfers`.  Chips are an
enumeration (the source compares strings from the API). -/

inductive ChipType
  | wildcard
  | freehit
  | benchboost
  | triplecap
deriving DecidableEq

structure GWRecord where
  event : ℤ
  active_chip : Option ChipType
  event_transfers : ℤ
  event_transfers_cost : ℤ

/-- Runs the forward replay loop of `_calculate_free_transfers`; the `break` on
`event > current_event` returns the accumulator. `//` is `Int.fdiv`. -/
def ftLoop (current_event : ℤ) (ft : ℤ) : List GWRecord → ℤ
  | [] => ft
  | gw :: rest =>
    if gw.event > current_event then ft
    else
      let ft2 : ℤ :=
        if gw.active_chip = some ChipType.wildcard ∨ gw.active_chip = some ChipType.freehit
        then 1
        else if gw.event_transfers_cost > 0 then
          max 0 (ft - (gw.event_transfers - Int.fdiv gw.event_transfers_cost 4)) + 1
        else if gw.event_transfers > 0 then
          max 1 (ft - gw.event_transfers + 1)
        else min (ft + 1) 5
      ftLoop current_event ft2 rest

/-- Embeds `_calculate_free_transfers` (the exception handler returning 1 is
the `history.isEmpty ∨ current_event < 1` guard; a fetch error also yields 1). -/
def calculateFreeTransfers (current_event : ℤ) (history : List GWRecord) : ℤ :=
  if history.isEmpty ∨ current_event < 1 then 1
  else ftLoop current_event 0 history

/-! ## Plan extraction: free-transfer bookkeeping
Embedding of the per-gameweek free-transfer arithmetic of
`_extract_transfer_plan` (lines 614-645).  `n` is `len(transfers_in_list)`. -/

structure WeekOut where
  free_used : ℤ
  hit_cost : ℤ
  free_left : ℤ

/-- Computes one loop iteration of `_extract_transfer_plan`:
`free_used = min(n, ft)`, `paid = max(0, n - free_used)`,
`transfer_cost = paid * 4`, and the reported
`free_transfers_remaining_this_week`. -/
def extractStep (ft n : ℤ) : WeekOut :=
  let free_used : ℤ := min n ft
  let paid : ℤ := max 0 (n - free_used)
  let transfer_cost : ℤ := paid * 4
  let remaining : ℤ := if n > 0 then ft - free_used else ft
  ⟨free_used, transfer_cost, remaining⟩

/-- Computes the free-transfer count carried to the next gameweek:
`free_transfers = min(MAX_FREE_TRANSFERS, max(1, remaining + 1))`. -/
def nextFT (ft n : ℤ) : ℤ :=
  min 5 (max 1 ((extractStep ft n).free_left + 1))

/-- Runs the extraction loop over the per-week transfer counts. -/
def extractPlan (ft : ℤ) : List ℤ → List WeekOut
  | [] => []
  | n :: ns => extractStep ft n :: extractPlan (nextFT ft n) ns

/-- Computes the free-transfer count available entering step `t`
(`free_transfers` at the top of iteration `t` of the loop). -/
def availAt (ft : ℤ) : List ℤ → ℕ → ℤ
  | _, 0 => ft
  | [], _ + 1 => ft
  | n :: ns, t + 1 => availAt (nextFT ft n) ns t

/-! ## Solver backend selection
Embedding of the backend loop of `_solve_cvxpy_model` (lines 462-524):
build `solvers_to_try` from the installed set, run them in order, accept the
first whose status is `optimal` or `optimal_inaccurate`, raise when none is. -/

inductive Backend
  | glpkMI
  | cbc
  | scip
  | ecosBB
  | defaultSolver
deriving DecidableEq

/-- Models one backend attempt: the reported status, or a raised exception. -/
inductive SolveOutcome
  | optimal
  | optimal_inaccurate
  | otherStatus
  | raised
deriving DecidableEq

/-- Lists the four named backends in the source's priority order. -/
def priorityOrder : List Backend :=
  [Backend.glpkMI, Backend.cbc, Backend.scip, Backend.ecosBB]

/-- Embeds the construction of `solvers_to_try`: the installed named backends
in priority order; the default solver only when that list is empty. -/
def solversToTry (avail : Backend → Bool) : List Backend :=
  let installed := priorityOrder.filter avail
  if installed.isEmpty then [Backend.defaultSolver] else installed

/-- Decides `problem.status in ["optimal", "optimal_inaccurate"]` (an exception
is never accepted). -/
def accepted : SolveOutcome → Bool
  | SolveOutcome.optimal => true
  | SolveOutcome.optimal_inaccurate => true
  | _ => false

/-- Runs the solver loop: the first tried backend with an accepted status;
`none` models the final `raise RuntimeError` (no partial solution). -/
def runSolvers (avail : Backend → Bool) (result : Backend → SolveOutcome) :
    Option Backend :=
  (solversToTry avail).find? (fun b => accepted (result b))

/-- Modelled from the spec: the try-order as the claim states it — the four
named backends in priority order, skipping unavailable ones, and then the
default solver.  To be compared with `solversToTry` from the code. -/
def claimedSolversToTry (avail : Backend → Bool) : List Backend :=
  priorityOrder.filter avail ++ [Backend.defaultSolver]

/-! ## The transfer MIP constraint system
Embedding of the constraint list built by `_solve_cvxpy_model` (lines
332-430).  Players are indexed by their position `i` in `all_players`;
`b2z` is the 0/1 value of a boolean decision variable.  An assignment of the
decision variables satisfies `modelConstraints` exactly when it satisfies
every constraint appended by the source. -/

structure MPlayer where
  id : ℕ
  now_cost : ℤ
  team : ℕ
  element_type : ℕ

structure ModelInput where
  players : List MPlayer
  current_squad_ids : List ℕ
  total_budget : ℚ
  num_gameweeks : ℕ
  initial_free_transfers : ℤ

structure ModelVars where
  squad : ℕ → ℕ → Bool
  starting : ℕ → ℕ → Bool
  transfers_in : ℕ → ℕ → Bool
  transfers_out : ℕ → ℕ → Bool
  free_transfers_remaining : ℕ → ℤ
  paid_transfers : ℕ → ℤ

def b2z (b : Bool) : ℤ := if b then 1 else 0

def numPlayers (inp : ModelInput) : ℕ := inp.players.length

/-- Reads player `i` of `all_players` (a default outside the range, which the
index sums below never touch). -/
def playerAt (inp : ModelInput) (i : ℕ) : MPlayer := inp.players.getD i ⟨0, 0, 0, 0⟩

def zSum (m : ℕ) (f : ℕ → ℤ) : ℤ := ((List.range m).map f).sum

def qSum (m : ℕ) (f : ℕ → ℚ) : ℚ := ((List.range m).map f).sum

/-- Embeds `current_squad_vector` (1 for players whose id is in the squad). -/
def currentSquadVector (inp : ModelInput) (i : ℕ) : ℤ :=
  if (playerAt inp i).id ∈ inp.current_squad_ids then 1 else 0

/-- Sums `cp.sum(squad[:, t])`. -/
def squadCount (inp : ModelInput) (v : ModelVars) (t : ℕ) : ℤ :=
  zSum (numPlayers inp) (fun i => b2z (v.squad i t))

/-- Sums `cp.sum(squad[:, t] * (player_positions == pos))`. -/
def posCount (inp : ModelInput) (v : ModelVars) (pos t : ℕ) : ℤ :=
  zSum (numPlayers inp)
    (fun i => b2z (v.squad i t) * (if (playerAt inp i).element_type = pos then 1 else 0))

/-- Sums `cp.sum(squad[:, t] * (player_teams == team_id))`. -/
def teamCount (inp : ModelInput) (v : ModelVars) (c t : ℕ) : ℤ :=
  zSum (numPlayers inp)
    (fun i => b2z (v.squad i t) * (if (playerAt inp i).team = c then 1 else 0))

/-- Sums `cp.sum(starting[:, t])`. -/
def startCount (inp : ModelInput) (v : ModelVars) (t : ℕ) : ℤ :=
  zSum (numPlayers inp) (fun i => b2z (v.starting i t))

/-- Sums `cp.sum(starting[:, t] * (player_positions == pos))`. -/
def startPosCount (inp : ModelInput) (v : ModelVars) (pos t : ℕ) : ℤ :=
  zSum (numPlayers inp)
    (fun i => b2z (v.starting i t) * (if (playerAt inp i).element_type = pos then 1 else 0))

/-- Sums `num_transfers = cp.sum(transfers_in[:, t])`. -/
def tinSum (inp : ModelInput) (v : ModelVars) (t : ℕ) : ℤ :=
  zSum (numPlayers inp) (fun i => b2z (v.transfers_in i t))

/-- Sums `cp.sum(transfers_out[:, t])`. -/
def toutSum (inp : ModelInput) (v : ModelVars) (t : ℕ) : ℤ :=
  zSum (numPlayers inp) (fun i => b2z (v.transfers_out i t))

/-- Sums `cp.sum(transfers_in[:, t] * (player_positions == pos))`. -/
def tinPosCount (inp : ModelInput) (v : ModelVars) (pos t : ℕ) : ℤ :=
  zSum (numPlayers inp)
    (fun i => b2z (v.transfers_in i t) * (if (playerAt inp i).element_type = pos then 1 else 0))

/-- Sums `cp.sum(transfers_out[:, t] * (player_positions == pos))`. -/
def toutPosCount (inp : ModelInput) (v : ModelVars) (pos t : ℕ) : ℤ :=
  zSum (numPlayers inp)
    (fun i => b2z (v.transfers_out i t) * (if (playerAt inp i).element_type = pos then 1 else 0))

/-- Sums `cp.sum(squad[:, t] * player_costs)` with `player_costs = now_cost / 10.0`. -/
def costSum (inp : ModelInput) (v : ModelVars) (t : ℕ) : ℚ :=
  qSum (numPlayers inp)
    (fun i => (b2z (v.squad i t) : ℚ) * (((playerAt inp i).now_cost : ℚ) / 10))

/-- Reads `free_available`: the previous week's variable, or the initial count
at `t = 0`. -/
def freeAvail (inp : ModelInput) (v : ModelVars) (t : ℕ) : ℤ :=
  if t = 0 then inp.initial_free_transfers else v.free_transfers_remaining (t - 1)

/-- Conjoins every constraint appended by `_solve_cvxpy_model` (in source
order: initial squad, initial free transfers, the per-gameweek block, and the
per-gameweek budget constraint). -/
def modelConstraints (inp : ModelInput) (v : ModelVars) : Prop :=
  (∀ i < numPlayers inp, b2z (v.squad i 0) = currentSquadVector inp i) ∧
  v.free_transfers_remaining 0 = inp.initial_free_transfers ∧
  ∀ t < inp.num_gameweeks,
    (0 < t → ∀ i < numPlayers inp,
      b2z (v.squad i t) =
        b2z (v.squad i (t - 1)) + b2z (v.transfers_in i t) - b2z (v.transfers_out i t)) ∧
    squadCount inp v t = 15 ∧
    posCount inp v 1 t = 2 ∧
    posCount inp v 2 t = 5 ∧
    posCount inp v 3 t = 5 ∧
    posCount inp v 4 t = 3 ∧
    (∀ c < 21, 1 ≤ c → teamCount inp v c t ≤ 3) ∧
    startCount inp v t = 11 ∧
    (∀ i < numPlayers inp, b2z (v.starting i t) ≤ b2z (v.squad i t)) ∧
    startPosCount inp v 1 t = 1 ∧
    3 ≤ startPosCount inp v 2 t ∧
    1 ≤ startPosCount inp v 4 t ∧
    toutSum inp v t = tinSum inp v t ∧
    (∀ i < numPlayers inp,
      b2z (v.transfers_out i t) ≤
        (if t = 0 then currentSquadVector inp i else b2z (v.squad i (t - 1)))) ∧
    (∀ i < numPlayers inp,
      b2z (v.transfers_in i t) ≤
        1 - (if t = 0 then currentSquadVector inp i else b2z (v.squad i (t - 1)))) ∧
    (∀ pos < 5, 1 ≤ pos → tinPosCount inp v pos t = toutPosCount inp v pos t) ∧
    0 ≤ v.paid_transfers t ∧
    tinSum inp v t - freeAvail inp v t ≤ v.paid_transfers t ∧
    v.paid_transfers t ≤ tinSum inp v t ∧
    v.free_transfers_remaining t =
      freeAvail inp v t + 1 - tinSum inp v t + v.paid_transfers t ∧
    v.free_transfers_remaining t ≤ 5 ∧
    0 ≤ v.free_transfers_remaining t ∧
    costSum inp v t ≤ inp.total_budget

/-! ## Lemmas about the expected-points engine -/

theorem calcExpectedPoints_eq_one (p : PlayerData) (fx : Option FixtureData)
    (h : p.starts = 0 ∨ p.minutes = 0) : calcExpectedPoints p fx = 1 := by
  unfold calcExpectedPoints
  rw [if_pos h]
  norm_num

theorem calcExpectedPoints_eq (p : PlayerData) (fx : Option FixtureData)
    (h : ¬ (p.starts = 0 ∨ p.minutes = 0)) :
    calcExpectedPoints p fx =
      roundTo1 (qmax 0.5 (qmin
        (qmin (baseScore p * fixtureMultiplier p fx * homeAwayMultiplier p fx *
          minutesMultiplier p) 8.0 +
         qmax (-1.0) (qmin (underlyingAdjustment p) 1.5)) 8.0)) := by
  unfold calcExpectedPoints
  rw [if_neg h]

theorem roundTo1_mono {x y : ℚ} (h : x ≤ y) : roundTo1 x ≤ roundTo1 y := by
  unfold roundTo1
  have hf : ⌊x * 10 + 1/2⌋ ≤ ⌊y * 10 + 1/2⌋ := Int.floor_le_floor (by linarith)
  have hq : ((⌊x * 10 + 1/2⌋ : ℤ) : ℚ) ≤ ((⌊y * 10 + 1/2⌋ : ℤ) : ℚ) := by exact_mod_cast hf
  linarith

theorem roundTo1_clamped_bounds (z : ℚ) :
    1/2 ≤ roundTo1 (qmax 0.5 (qmin z 8.0)) ∧ roundTo1 (qmax 0.5 (qmin z 8.0)) ≤ 8 := by
  rw [qmax_eq_max, qmin_eq_min]
  set w : ℚ := max 0.5 (min z 8.0) with hw
  have h1 : 1/2 ≤ w := by
    rw [hw]
    calc (1/2 : ℚ) = 0.5 := by norm_num
    _ ≤ max 0.5 (min z 8.0) := le_max_left _ _
  have h2 : w ≤ 8 := by
    rw [hw]
    exact max_le (by norm_num) (le_trans (min_le_right _ _) (by norm_num))
  unfold roundTo1
  constructor
  · have hk : (5 : ℤ) ≤ ⌊w * 10 + 1/2⌋ := by
      apply Int.le_floor.mpr
      push_cast
      linarith
    have : ((5 : ℤ) : ℚ) ≤ ((⌊w * 10 + 1/2⌋ : ℤ) : ℚ) := by exact_mod_cast hk
    linarith
  · have hk : ⌊w * 10 + 1/2⌋ ≤ (80 : ℤ) := by
      have h161 : w * 10 + 1/2 ≤ (161/2 : ℚ) := by linarith
      have := Int.floor_le_floor h161
      have h80 : ⌊(161/2 : ℚ)⌋ = 80 := by norm_num
      omega
    have : ((⌊w * 10 + 1/2⌋ : ℤ) : ℚ) ≤ ((80 : ℤ) : ℚ) := by exact_mod_cast hk
    linarith

theorem calcExpectedPoints_bounds (p : PlayerData) (fx : Option FixtureData) :
    1/2 ≤ calcExpectedPoints p fx ∧ calcExpectedPoints p fx ≤ 8 := by
  by_cases h : p.starts = 0 ∨ p.minutes = 0
  · rw [calcExpectedPoints_eq_one p fx h]
    norm_num
  · rw [calcExpectedPoints_eq p fx h]
    exact roundTo1_clamped_bounds _

/-- C2: for every player input and any fixture-or-none argument, the
per-(player, gameweek) expected-points value `v` satisfies `0.5 ≤ v ≤ 8.0`,
and `v` is rounded to one decimal place (it is an integer number of tenths). -/
theorem expected_points_bounded_and_rounded (p : PlayerData) (fx : Option FixtureData) :
    (1/2 ≤ calcExpectedPoints p fx ∧ calcExpectedPoints p fx ≤ 8) ∧
    ∃ k : ℤ, calcExpectedPoints p fx = (k : ℚ) / 10 := by
  refine ⟨calcExpectedPoints_bounds p fx, ?_⟩
  by_cases h : p.starts = 0 ∨ p.minutes = 0
  · exact ⟨10, by rw [calcExpectedPoints_eq_one p fx h]; norm_num⟩
  · rw [calcExpectedPoints_eq p fx h]
    exact ⟨_, rfl⟩

/-- C5 counterexample: a midfielder with form 5 who always plays a full game,
in a blank gameweek (no fixture), gets expected points 4.5 — the claimed
`xp ≤ 1.0` blank-gameweek cap does not hold on the code. -/
theorem blank_gameweek_xp_above_one :
    calcExpectedPoints ⟨5, 900, 10, 3, 1, 0, 0, 0, 0⟩ none = 9/2 ∧
    ¬ calcExpectedPoints ⟨5, 900, 10, 3, 1, 0, 0, 0, 0⟩ none ≤ 1 := by
  have h : calcExpectedPoints ⟨5, 900, 10, 3, 1, 0, 0, 0, 0⟩ none = 9/2 := by
    norm_num [calcExpectedPoints, baseScore, fixtureMultiplier, homeAwayMultiplier,
      minutesMultiplier, underlyingAdjustment, avgMinutes, gamesPlayed, qmin, qmax, roundTo1]
  refine ⟨h, ?_⟩
  rw [h]
  norm_num

/-- C5 amended: in a blank gameweek both the fixture-difficulty multiplier and
the home/away multiplier are 1.0, and the expected points are computed by the
ordinary formula with those unit multipliers, bounded only by the global
clamp `[0.5, 8.0]` (no additional `≤ 1.0` blank-gameweek floor is applied). -/
theorem blank_gameweek_multipliers (p : PlayerData) :
    fixtureMultiplier p none = 1 ∧ homeAwayMultiplier p none = 1 ∧
    1/2 ≤ calcExpectedPoints p none ∧ calcExpectedPoints p none ≤ 8 :=
  ⟨by norm_num [fixtureMultiplier], by norm_num [homeAwayMultiplier],
   (calcExpectedPoints_bounds p none).1, (calcExpectedPoints_bounds p none).2⟩

/-- C6 counterexample: for a midfielder (away fixture of difficulty 5, 30
minutes over 1 start, xGI 3), raising form by δ = 1 > 0 lowers the expected
points from 2.4 to 2.3, because the underlying-stats adjustment falls by
0.5·δ while the base line grows only by δ times the product of multipliers. -/
theorem xp_not_monotone_in_form :
    (0 : ℚ) < 1 ∧
    calcExpectedPoints ⟨4 + 1, 30, 1, 3, 1, 0, 0, 3, 0⟩ (some ⟨2, 1, 3, 5⟩) <
      calcExpectedPoints ⟨4, 30, 1, 3, 1, 0, 0, 3, 0⟩ (some ⟨2, 1, 3, 5⟩) := by
  have h1 : calcExpectedPoints ⟨4, 30, 1, 3, 1, 0, 0, 3, 0⟩ (some ⟨2, 1, 3, 5⟩) = 12/5 := by
    norm_num [calcExpectedPoints, baseScore, fixtureMultiplier, homeAwayMultiplier,
      minutesMultiplier, underlyingAdjustment, avgMinutes, gamesPlayed, qmin, qmax, roundTo1]
  have h2 : calcExpectedPoints ⟨4 + 1, 30, 1, 3, 1, 0, 0, 3, 0⟩ (some ⟨2, 1, 3, 5⟩) = 23/10 := by
    norm_num [calcExpectedPoints, baseScore, fixtureMultiplier, homeAwayMultiplier,
      minutesMultiplier, underlyingAdjustment, avgMinutes, gamesPlayed, qmin, qmax, roundTo1]
  rw [h1, h2]
  norm_num

theorem minutesMultiplier_nonneg (p : PlayerData) (hm : 0 ≤ p.minutes) :
    0 ≤ minutesMultiplier p := by
  unfold minutesMultiplier
  rw [qmin_eq_min]
  have hg : (0 : ℚ) < ((gamesPlayed p : ℤ) : ℚ) := by
    have : (1 : ℤ) ≤ gamesPlayed p := le_max_right _ _
    exact_mod_cast lt_of_lt_of_le zero_lt_one this
  have ha : 0 ≤ avgMinutes p := by
    unfold avgMinutes
    apply div_nonneg _ hg.le
    exact_mod_cast hm
  have h0 : (0 : ℚ) ≤ min (avgMinutes p / 90) 1.0 :=
    le_min (by positivity) (by norm_num)
  nlinarith

theorem fixtureMultiplier_nonneg (p : PlayerData) (fx : Option FixtureData)
    (hfx : ∀ f ∈ fx, 1 ≤ f.team_h_difficulty ∧ f.team_h_difficulty ≤ 5 ∧
      1 ≤ f.team_a_difficulty ∧ f.team_a_difficulty ≤ 5) :
    0 ≤ fixtureMultiplier p fx := by
  cases fx with
  | none => norm_num [fixtureMultiplier]
  | some f =>
    obtain ⟨hh1, hh5, ha1, ha5⟩ := hfx f rfl
    simp only [fixtureMultiplier]
    by_cases hhome : f.team_h = p.team
    · rw [if_pos hhome]
      have : ((3 - f.team_h_difficulty : ℤ) : ℚ) ≥ -2 := by
        have : (-2 : ℤ) ≤ 3 - f.team_h_difficulty := by omega
        exact_mod_cast this
      nlinarith
    · rw [if_neg hhome]
      have : ((3 - f.team_a_difficulty : ℤ) : ℚ) ≥ -2 := by
        have : (-2 : ℤ) ≤ 3 - f.team_a_difficulty := by omega
        exact_mod_cast this
      nlinarith

theorem homeAwayMultiplier_nonneg (p : PlayerData) (fx : Option FixtureData) :
    0 ≤ homeAwayMultiplier p fx := by
  cases fx with
  | none => norm_num [homeAwayMultiplier]
  | some f =>
    simp only [homeAwayMultiplier]
    by_cases hhome : f.team_h = p.team
    · rw [if_pos hhome]; norm_num
    · rw [if_neg hhome]; norm_num

/-- C6 amended: the expected points are monotone in form for goalkeepers and
defenders with positive form (given nonnegative minutes and in-range fixture
difficulties); for midfielders and forwards, or at form 0, monotonicity fails
(see the counterexample). -/
theorem xp_monotone_in_form_gk_def (p : PlayerData) (fx : Option FixtureData)
    (f1 f2 : ℚ) (hty : p.element_type = 1 ∨ p.element_type = 2)
    (h1 : 0 < f1) (h12 : f1 ≤ f2) (hm : 0 ≤ p.minutes)
    (hfx : ∀ f ∈ fx, 1 ≤ f.team_h_difficulty ∧ f.team_h_difficulty ≤ 5 ∧
      1 ≤ f.team_a_difficulty ∧ f.team_a_difficulty ≤ 5) :
    calcExpectedPoints { p with form := f1 } fx ≤
      calcExpectedPoints { p with form := f2 } fx := by
  by_cases hg : p.starts = 0 ∨ p.minutes = 0
  · rw [calcExpectedPoints_eq_one { p with form := f1 } fx hg,
      calcExpectedPoints_eq_one { p with form := f2 } fx hg]
  · rw [calcExpectedPoints_eq { p with form := f1 } fx hg,
      calcExpectedPoints_eq { p with form := f2 } fx hg]
    have hbase1 : baseScore { p with form := f1 } = f1 := by
      unfold baseScore
      rw [if_neg]
      rintro ⟨hf, -⟩
      exact absurd hf (ne_of_gt h1)
    have hbase2 : baseScore { p with form := f2 } = f2 := by
      unfold baseScore
      rw [if_neg]
      rintro ⟨hf, -⟩
      exact absurd hf (ne_of_gt (lt_of_lt_of_le h1 h12))
    have hadj : underlyingAdjustment { p with form := f2 } =
        underlyingAdjustment { p with form := f1 } := by
      rcases hty with h | h <;>
        simp [underlyingAdjustment, h, gamesPlayed]
    have hfm : fixtureMultiplier { p with form := f1 } fx =
        fixtureMultiplier { p with form := f2 } fx := by
      cases fx <;> rfl
    have hhm : homeAwayMultiplier { p with form := f1 } fx =
        homeAwayMultiplier { p with form := f2 } fx := by
      cases fx <;> rfl
    have hmm : minutesMultiplier { p with form := f1 } =
        minutesMultiplier { p with form := f2 } := rfl
    rw [hbase1, hbase2, hadj, hfm, hhm, hmm]
    apply roundTo1_mono
    simp only [qmax_eq_max, qmin_eq_min]
    apply max_le_max le_rfl
    apply min_le_min _ le_rfl
    apply add_le_add_right
    apply min_le_min _ le_rfl
    have hFM : 0 ≤ fixtureMultiplier { p with form := f2 } fx :=
      fixtureMultiplier_nonneg _ fx hfx
    have hHM : 0 ≤ homeAwayMultiplier { p with form := f2 } fx :=
      homeAwayMultiplier_nonneg _ fx
    have hMM : 0 ≤ minutesMultiplier { p with form := f2 } :=
      minutesMultiplier_nonneg _ hm
    have s1 := mul_le_mul_of_nonneg_right h12 hFM
    have s2 := mul_le_mul_of_nonneg_right s1 hHM
    exact mul_le_mul_of_nonneg_right s2 hMM

/-- C6 witness: the amended monotonicity applied to a concrete goalkeeper at
forms 2 ≤ 3, with no fixture. -/
theorem xp_monotone_in_form_gk_def_witness :
    calcExpectedPoints ⟨2, 900, 10, 1, 1, 0, 0, 0, 10⟩ none ≤
      calcExpectedPoints ⟨3, 900, 10, 1, 1, 0, 0, 0, 10⟩ none :=
  xp_monotone_in_form_gk_def ⟨2, 900, 10, 1, 1, 0, 0, 0, 10⟩ none 2 3
    (Or.inl rfl) (by norm_num) (by norm_num) (by norm_num)
    (by intro f hf; simp at hf)

/-! ## Lemmas about selling prices and the budget -/

theorem foldl_add_sum {α : Type} (g : α → ℚ) (b : ℚ) (l : List α) :
    l.foldl (fun acc x => acc + g x) b = b + (l.map g).sum := by
  induction l generalizing b with
  | nil => simp
  | cons x xs ih => simp [ih, add_assoc]

theorem calculateSellingPrices_eq (squad : List TeamPick) (lookup : ℕ → Option PlayerRec) :
    calculateSellingPrices squad lookup =
      (squad.map (fun pick => (pick.element, sellPrice lookup pick))).reverse := by
  suffices h : ∀ d, squad.foldl (fun d pick => (pick.element, sellPrice lookup pick) :: d) d
      = (squad.map (fun pick => (pick.element, sellPrice lookup pick))).reverse ++ d by
    simpa [calculateSellingPrices] using h []
  induction squad with
  | nil => intro d; simp
  | cons x xs ih => intro d; simp [ih, List.append_assoc]

theorem find?_nodup_key (l : List (ℕ × ℚ)) (k : ℕ) (v : ℚ)
    (hnd : (l.map Prod.fst).Nodup) (hm : (k, v) ∈ l) :
    l.find? (fun kv => kv.1 == k) = some (k, v) := by
  induction l with
  | nil => cases hm
  | cons x xs ih =>
    rw [List.map_cons] at hnd
    rcases List.nodup_cons.mp hnd with ⟨hx, hxs⟩
    by_cases hk : x.1 = k
    · have hxv : x = (k, v) := by
        rcases List.mem_cons.mp hm with h | h
        · exact h.symm
        · exfalso
          apply hx
          rw [hk]
          exact List.mem_map_of_mem Prod.fst h
      rw [List.find?_cons_of_pos]
      · rw [hxv]
      · simp [hk]
    · rw [List.find?_cons_of_neg]
      · apply ih hxs
        rcases List.mem_cons.mp hm with h | h
        · exact absurd (congrArg Prod.fst h.symm) hk
        · exact h
      · simp [hk]

theorem dictGet_sellingPrices (squad : List TeamPick) (lookup : ℕ → Option PlayerRec)
    (hnd : (squad.map TeamPick.element).Nodup) (pick : TeamPick) (hp : pick ∈ squad) :
    dictGet (calculateSellingPrices squad lookup) pick.element = sellPrice lookup pick := by
  rw [calculateSellingPrices_eq]
  have hmem : (pick.element, sellPrice lookup pick) ∈
      (squad.map (fun pk => (pk.element, sellPrice lookup pk))).reverse := by
    rw [List.mem_reverse]
    exact List.mem_map_of_mem _ hp
  have hkeys : (((squad.map (fun pk => (pk.element, sellPrice lookup pk))).reverse).map
      Prod.fst).Nodup := by
    rw [List.map_reverse, List.nodup_reverse, List.map_map]
    simpa [Function.comp] using hnd
  rw [dictGet, find?_nodup_key _ _ _ hkeys hmem]
  rfl

theorem totalBudget_as_sum (squad : List TeamPick) (d : List (ℕ × ℚ)) (bank : ℚ) :
    calculateTotalBudget squad d bank =
      bank + (squad.map (fun pick => dictGet d pick.element)).sum :=
  foldl_add_sum _ bank squad

theorem sellingPrices_total (squad : List TeamPick) (lookup : ℕ → Option PlayerRec)
    (bank : ℚ) (hnd : (squad.map TeamPick.element).Nodup) :
    calculateTotalBudget squad (calculateSellingPrices squad lookup) bank
      = bank + (squad.map (sellPrice lookup)).sum := by
  rw [totalBudget_as_sum]
  congr 1
  apply congrArg List.sum
  apply List.map_congr_left
  intro pk hpk
  exact dictGet_sellingPrices squad lookup hnd pk hpk

/-- C3 counterexample: a pick bought at 50 tenths whose price rose to 55
tenths sells for 5.25 million (exact half profit), not the claimed
`50 + floor((55 - 50) / 2) = 52` tenths (5.2 million): the code never rounds
the half-profit down. -/
theorem selling_price_not_floored :
    sellPrice (fun i => if i = 1 then some ⟨1, 55⟩ else none) ⟨1, some 50⟩ = 21/4 ∧
    ¬ 10 * sellPrice (fun i => if i = 1 then some ⟨1, 55⟩ else none) ⟨1, some 50⟩
        = ((50 + Int.fdiv (55 - 50) 2 : ℤ) : ℚ) := by
  have h : sellPrice (fun i => if i = 1 then some ⟨1, 55⟩ else none) ⟨1, some 50⟩ = 21/4 := by
    norm_num [sellPrice, pyOr]
  refine ⟨h, ?_⟩
  rw [h]
  norm_num [Int.fdiv]

/-- C3 amended: for every found pick the dict entry equals the per-pick price;
that price, in tenths, is the exact (unfloored) half-profit
`p_buy + (p_now - p_buy) / 2` when `p_now ≥ p_buy` and `p_now` otherwise (with
`p_buy` falling back to `p_now` when the recorded purchase price is absent or
zero); and the total budget is the bank plus the sum of the picks' selling
prices. -/
theorem selling_prices_and_budget (squad : List TeamPick) (lookup : ℕ → Option PlayerRec)
    (bank : ℚ) (hnd : (squad.map TeamPick.element).Nodup) :
    (∀ pick ∈ squad, dictGet (calculateSellingPrices squad lookup) pick.element
        = sellPrice lookup pick) ∧
    (∀ pick ∈ squad, ∀ player, lookup pick.element = some player →
      10 * sellPrice lookup pick =
        (if pyOr pick.purchase_price player.now_cost ≤ player.now_cost
         then ((pyOr pick.purchase_price player.now_cost : ℤ) : ℚ)
           + (((player.now_cost - pyOr pick.purchase_price player.now_cost : ℤ) : ℚ)) / 2
         else ((player.now_cost : ℤ) : ℚ))) ∧
    calculateTotalBudget squad (calculateSellingPrices squad lookup) bank
      = bank + (squad.map (sellPrice lookup)).sum := by
  refine ⟨fun pick hp => dictGet_sellingPrices squad lookup hnd pick hp, ?_,
    sellingPrices_total squad lookup bank hnd⟩
  intro pick hp player hlp
  simp only [sellPrice, hlp]
  by_cases hc : pyOr pick.purchase_price player.now_cost ≤ player.now_cost
  · rw [if_pos hc, if_pos]
    · push_cast
      ring
    · rw [ge_iff_le, div_le_div_iff_of_pos_right (by norm_num : (0:ℚ) < 10)]
      exact_mod_cast hc
  · rw [if_neg hc, if_neg]
    · ring
    · rw [ge_iff_le, div_le_div_iff_of_pos_right (by norm_num : (0:ℚ) < 10)]
      intro hcon
      exact hc (by exact_mod_cast hcon)

/-- C3 witness: the amended statement applied to a concrete two-pick squad
(one price rise with recorded purchase price, one fallback) and bank 10. -/
theorem selling_prices_and_budget_witness :
    calculateTotalBudget [⟨1, some 50⟩, ⟨2, none⟩]
      (calculateSellingPrices [⟨1, some 50⟩, ⟨2, none⟩]
        (fun i => if i = 1 then some ⟨1, 55⟩ else if i = 2 then some ⟨2, 40⟩ else none)) 10
      = 10 + (([⟨1, some 50⟩, ⟨2, none⟩] : List TeamPick).map
          (sellPrice (fun i => if i = 1 then some ⟨1, 55⟩ else if i = 2 then some ⟨2, 40⟩
            else none))).sum :=
  (selling_prices_and_budget [⟨1, some 50⟩, ⟨2, none⟩]
    (fun i => if i = 1 then some ⟨1, 55⟩ else if i = 2 then some ⟨2, 40⟩ else none)
    10 (by decide)).2.2

/-- C9: a squad pick whose player id is absent from the lookup is assigned
selling price 0.0 (both per-pick and in the dict), no error is raised, and the
total budget is still the bank plus the per-pick sum — in which that pick
contributes 0, so the player's value is silently excluded. -/
theorem missing_player_sells_for_zero (squad : List TeamPick)
    (lookup : ℕ → Option PlayerRec) (bank : ℚ) (pick : TeamPick)
    (hnd : (squad.map TeamPick.element).Nodup) (hp : pick ∈ squad)
    (hmiss : lookup pick.element = none) :
    dictGet (calculateSellingPrices squad lookup) pick.element = 0 ∧
    sellPrice lookup pick = 0 ∧
    calculateTotalBudget squad (calculateSellingPrices squad lookup) bank
      = bank + (squad.map (sellPrice lookup)).sum := by
  have h0 : sellPrice lookup pick = 0 := by simp [sellPrice, hmiss]
  refine ⟨?_, h0, sellingPrices_total squad lookup bank hnd⟩
  rw [dictGet_sellingPrices squad lookup hnd pick hp]
  exact h0

/-- C9 witness: a one-pick squad whose player is unknown to the lookup. -/
theorem missing_player_sells_for_zero_witness :
    dictGet (calculateSellingPrices [⟨7, none⟩] (fun _ => none)) 7 = 0 :=
  (missing_player_sells_for_zero [⟨7, none⟩] (fun _ => none) 0 ⟨7, none⟩
    (by decide) (by simp) rfl).1

/-- C4: the ledger leaves the `[1, 5]` range promised by its own docstring.
With last completed gameweek 1 and a history whose only entry lies in
gameweek 2, the loop never runs and the initial accumulator 0 is returned;
after five transfer-free gameweeks (banking to 5) a hit-taking gameweek with
2 transfers at cost 8 yields `max(0, 5 - 0) + 1 = 6`.  An empty history does
return the default 1. -/
theorem free_transfers_out_of_range :
    calculateFreeTransfers 1 [⟨2, none, 0, 0⟩] = 0 ∧
    calculateFreeTransfers 6 [⟨1, none, 0, 0⟩, ⟨2, none, 0, 0⟩, ⟨3, none, 0, 0⟩,
      ⟨4, none, 0, 0⟩, ⟨5, none, 0, 0⟩, ⟨6, none, 2, 8⟩] = 6 ∧
    calculateFreeTransfers 1 [] = 1 := by
  refine ⟨?_, ?_, ?_⟩ <;> decide

/-! ## Lemmas about plan extraction -/

theorem availAt_zero (f : ℤ) (ns : List ℤ) : availAt f ns 0 = f := by
  cases ns <;> rfl

theorem nextFT_bounds (f n : ℤ) : 1 ≤ nextFT f n ∧ nextFT f n ≤ 5 := by
  unfold nextFT
  omega

theorem availAt_nonneg (f : ℤ) (hf : 0 ≤ f) (ns : List ℤ) (t : ℕ) :
    0 ≤ availAt f ns t := by
  induction ns generalizing f t with
  | nil => cases t <;> simpa [availAt]
  | cons n ns ih =>
    cases t with
    | zero => simpa [availAt]
    | succ t =>
      rw [availAt]
      exact ih _ (le_trans zero_le_one (nextFT_bounds f n).1) t

theorem extractPlan_getElem (f : ℤ) (ns : List ℤ) (t : ℕ) (n : ℤ)
    (hget : ns[t]? = some n) :
    (extractPlan f ns)[t]? = some (extractStep (availAt f ns t) n) := by
  induction ns generalizing f t with
  | nil => simp at hget
  | cons m ms ih =>
    cases t with
    | zero =>
      simp only [List.getElem?_cons_zero, Option.some.injEq] at hget
      subst hget
      simp [extractPlan, availAt_zero]
    | succ t =>
      simp only [List.getElem?_cons_succ] at hget
      rw [extractPlan, List.getElem?_cons_succ, availAt]
      exact ih (nextFT f m) t hget

/-- C7 counterexample: with 1 free transfer available and 0 transfers made,
the extractor reports `free_left = 1`, whereas the claimed formula
`clamp(free_avail + 1 - n + paid, 0, 5)` evaluates to 2. -/
theorem free_left_not_clamped_formula :
    (extractPlan 1 [0])[0]? = some ⟨0, 0, 1⟩ ∧
    ¬ ((1 : ℤ) = min 5 (max 0 (1 + 1 - 0 + 0))) := by
  refine ⟨rfl, ?_⟩
  decide

/-- C7 amended: for every step with a defined transfer count `n ≥ 0` (and a
nonnegative initial free-transfer count), the extractor reports
`free_used = min(n, free_avail)` and `hit_cost = 4 * max(0, n - free_avail)`
as claimed, but `free_left = free_avail - free_used` (not the claimed
`clamp(free_avail + 1 - n + paid, 0, 5)`; the `+1` accrual is only applied to
the count carried into the next step). -/
theorem extract_plan_reports (f : ℤ) (ns : List ℤ) (t : ℕ) (n : ℤ)
    (hf : 0 ≤ f) (hns : ∀ m ∈ ns, 0 ≤ m) (hget : ns[t]? = some n) :
    (extractPlan f ns)[t]? = some
      { free_used := min n (availAt f ns t),
        hit_cost := 4 * max 0 (n - availAt f ns t),
        free_left := availAt f ns t - min n (availAt f ns t) } := by
  rw [extractPlan_getElem f ns t n hget]
  have hn : 0 ≤ n := hns n (List.getElem?_mem hget)
  have ha : 0 ≤ availAt f ns t := availAt_nonneg f hf ns t
  unfold extractStep
  congr 1
  rw [WeekOut.mk.injEq]
  refine ⟨rfl, by omega, ?_⟩
  by_cases hpos : n > 0
  · rw [if_pos hpos]
  · rw [if_neg hpos]
    omega

/-- C7 witness: the amended report applied at 2 free transfers and 3
transfers in the single planned week. -/
theorem extract_plan_reports_witness :
    (extractPlan 2 [3])[0]? = some
      { free_used := min 3 (availAt 2 [3] 0),
        hit_cost := 4 * max 0 (3 - availAt 2 [3] 0),
        free_left := availAt 2 [3] 0 - min 3 (availAt 2 [3] 0) } :=
  extract_plan_reports 2 [3] 0 3 (by norm_num) (by decide) rfl

/-- C10: the free-transfer count carried into step `t + 1` is exactly
`min(5, max(1, free_left_t + 1))`, hence always within `[1, 5]` — the
extractor never carries 0 free transfers forward, whatever the initial count
(including 0 or values above 5). -/
theorem carried_free_transfers_in_range (f : ℤ) (ns : List ℤ) (t : ℕ) (w : WeekOut)
    (hw : (extractPlan f ns)[t]? = some w) :
    availAt f ns (t + 1) = min 5 (max 1 (w.free_left + 1)) ∧
    1 ≤ availAt f ns (t + 1) ∧ availAt f ns (t + 1) ≤ 5 := by
  induction ns generalizing f t with
  | nil => simp [extractPlan] at hw
  | cons m ms ih =>
    cases t with
    | zero =>
      have hw0 : extractStep f m = w := by
        simpa [extractPlan] using hw
      have hav : availAt f (m :: ms) 1 = nextFT f m := by
        rw [availAt, availAt_zero]
      rw [hav, ← hw0]
      exact ⟨rfl, (nextFT_bounds f m).1, (nextFT_bounds f m).2⟩
    | succ t =>
      have hw2 : (extractPlan (nextFT f m) ms)[t]? = some w := by
        simpa [extractPlan] using hw
      have := ih (nextFT f m) t hw2
      rw [availAt]
      exact this

/-- C10 witness: starting from 0 free transfers with a transfer-free week,
the count carried into step 1 is `min(5, max(1, 0 + 1)) = 1`. -/
theorem carried_free_transfers_in_range_witness :
    availAt 0 [0] 1 = min 5 (max 1 ((0 : ℤ) + 1)) ∧
    1 ≤ availAt 0 [0] 1 ∧ availAt 0 [0] 1 ≤ 5 :=
  carried_free_transfers_in_range 0 [0] 0 ⟨0, 0, 0⟩ rfl

/-- C8: the backend loop evaluated where only GLPK-MI is installed and fails
(non-optimal status) while the default solver would be optimal: the code's
try-list is just `[GLPK-MI]` — the default solver is appended only when *no*
named backend is installed, despite the source comment "Always try default
solver as fallback" — so the solve raises with no partial result, whereas the
claimed try-list `[GLPK-MI, default]` would have succeeded with the default. -/
theorem default_solver_not_tried :
    solversToTry (fun b => b == Backend.glpkMI) = [Backend.glpkMI] ∧
    runSolvers (fun b => b == Backend.glpkMI)
      (fun b => if b == Backend.glpkMI then SolveOutcome.otherStatus
        else SolveOutcome.optimal) = none ∧
    claimedSolversToTry (fun b => b == Backend.glpkMI)
      = [Backend.glpkMI, Backend.defaultSolver] ∧
    (claimedSolversToTry (fun b => b == Backend.glpkMI)).find?
      (fun b => accepted (if b == Backend.glpkMI then SolveOutcome.otherStatus
        else SolveOutcome.optimal)) = some Backend.defaultSolver := by
  refine ⟨?_, ?_, ?_, ?_⟩ <;> decide

/-! ## Lemmas about the MIP constraint system -/

theorem zSum_b2z_countP (m : ℕ) (f : ℕ → Bool) :
    zSum m (fun i => b2z (f i)) = ((List.range m).countP f : ℤ) := by
  induction m with
  | zero => simp [zSum]
  | succ k ih =>
    unfold zSum at ih ⊢
    rw [List.range_succ, List.map_append, List.sum_append, List.countP_append, ih]
    push_cast
    cases hk : f k <;> simp [b2z, List.countP_cons, hk]

theorem b2z_mul_ite (b : Bool) (c : Prop) [Decidable c] :
    b2z b * (if c then (1 : ℤ) else 0) = b2z (b && decide c) := by
  by_cases h : c <;> cases b <;> simp [b2z, h]

theorem zSum_congr (m : ℕ) (f g : ℕ → ℤ) (h : ∀ i < m, f i = g i) :
    zSum m f = zSum m g := by
  unfold zSum
  congr 1
  apply List.map_congr_left
  intro i hi
  exact h i (List.mem_range.mp hi)

theorem playerAt_mem (inp : ModelInput) (i : ℕ) (hi : i < numPlayers inp) :
    playerAt inp i ∈ inp.players := by
  unfold playerAt
  rw [List.getD_eq_getElem?_getD, List.getElem?_eq_getElem hi]
  exact List.getElem_mem hi

theorem teamCount_eq_zero (inp : ModelInput) (v : ModelVars) (c t : ℕ)
    (hc : ∀ i < numPlayers inp, (playerAt inp i).team ≠ c) :
    teamCount inp v c t = 0 := by
  unfold teamCount zSum
  apply List.sum_eq_zero
  intro x hx
  rcases List.mem_map.mp hx with ⟨i, hi, rfl⟩
  rw [if_neg (hc i (List.mem_range.mp hi))]
  exact mul_zero _

/-- C1: any assignment satisfying the model's constraint system has, at every
horizon step, exactly 15 squad members with exactly 2 GK / 5 DEF / 5 MID /
3 FWD, at most 3 squad members per club, squad cost within the total budget,
and a starting XI of exactly 11 squad members with exactly 1 GK, at least
3 DEF and at least 1 FWD. -/
theorem transfer_model_invariants (inp : ModelInput) (v : ModelVars)
    (hcon : modelConstraints inp v)
    (hteams : ∀ p ∈ inp.players, 1 ≤ p.team ∧ p.team ≤ 20) :
    ∀ t < inp.num_gameweeks,
      ((List.range (numPlayers inp)).countP (fun i => v.squad i t) = 15) ∧
      (posCount inp v 1 t = 2 ∧ posCount inp v 2 t = 5 ∧
       posCount inp v 3 t = 5 ∧ posCount inp v 4 t = 3) ∧
      (∀ c : ℕ, teamCount inp v c t ≤ 3) ∧
      costSum inp v t ≤ inp.total_budget ∧
      ((List.range (numPlayers inp)).countP (fun i => v.starting i t) = 11) ∧
      (∀ i < numPlayers inp, v.starting i t = true → v.squad i t = true) ∧
      (startPosCount inp v 1 t = 1 ∧ 3 ≤ startPosCount inp v 2 t ∧
       1 ≤ startPosCount inp v 4 t) := by
  intro t ht
  obtain ⟨hinit, hft0, hblock⟩ := hcon
  obtain ⟨hcont, hsz, hp1, hp2, hp3, hp4, hclub, hxi, hsub, hs1, hs2, hs4, htio,
    hout, hin, hbal, hpnn, hplo, hphi, hftr, hft5, hft0b, hbud⟩ := hblock t ht
  refine ⟨?_, ⟨hp1, hp2, hp3, hp4⟩, ?_, hbud, ?_, ?_, hs1, hs2, hs4⟩
  · have h := zSum_b2z_countP (numPlayers inp) (fun i => v.squad i t)
    rw [squadCount] at hsz
    rw [h] at hsz
    exact_mod_cast hsz
  · intro c
    by_cases hc : c < 21 ∧ 1 ≤ c
    · exact hclub c hc.1 hc.2
    · rw [teamCount_eq_zero]
      · norm_num
      · intro i hi
        have hb := hteams (playerAt inp i) (playerAt_mem inp i hi)
        push_neg at hc
        omega
  · have h := zSum_b2z_countP (numPlayers inp) (fun i => v.starting i t)
    rw [startCount] at hxi
    rw [h] at hxi
    exact_mod_cast hxi
  · intro i hi hstart
    have hle := hsub i hi
    cases hsq : v.squad i t with
    | true => rfl
    | false =>
      exfalso
      rw [hstart, hsq] at hle
      simp [b2z] at hle

/-- Witness data: 16 players (2 GK, 5 DEF, 5 MID, 3 FWD in the squad, plus a
spare midfielder), all priced 5.0, one per club. -/
def wPlayers : List MPlayer :=
  [⟨1, 50, 1, 1⟩, ⟨2, 50, 2, 1⟩, ⟨3, 50, 3, 2⟩, ⟨4, 50, 4, 2⟩, ⟨5, 50, 5, 2⟩,
   ⟨6, 50, 6, 2⟩, ⟨7, 50, 7, 2⟩, ⟨8, 50, 8, 3⟩, ⟨9, 50, 9, 3⟩, ⟨10, 50, 10, 3⟩,
   ⟨11, 50, 11, 3⟩, ⟨12, 50, 12, 3⟩, ⟨13, 50, 13, 4⟩, ⟨14, 50, 14, 4⟩,
   ⟨15, 50, 15, 4⟩, ⟨16, 50, 16, 3⟩]

def wInput : ModelInput :=
  ⟨wPlayers, [1, 2, 3, 4, 5, 6, 7, 8, 9, 10, 11, 12, 13, 14, 15], 100, 1, 1⟩

/-- Witness assignment: the first 15 players are the squad; a legal 1-5-4-1
starting XI; one midfielder swapped at step 0 (the t = 0 free-transfer
equations force exactly one net free transfer there). -/
def wVars : ModelVars :=
  { squad := fun i _ => decide (i < 15)
    starting := fun i _ => decide (i ∈ [0, 2, 3, 4, 5, 6, 7, 8, 9, 10, 12])
    transfers_in := fun i _ => decide (i = 15)
    transfers_out := fun i _ => decide (i = 11)
    free_transfers_remaining := fun _ => 1
    paid_transfers := fun _ => 0 }

theorem wConstraints : modelConstraints wInput wVars := by
  refine ⟨by decide, rfl, ?_⟩
  intro t ht
  have ht0 : t = 0 := by
    have h1 : wInput.num_gameweeks = 1 := rfl
    omega
  subst ht0
  repeat' apply And.intro
  all_goals first
    | decide
    | norm_num [costSum, qSum, numPlayers, wInput, wPlayers, playerAt, wVars, b2z,
        List.range_succ]

/-- C1 witness: the invariants theorem applied to the concrete feasible
assignment, projecting the squad-size invariant at step 0. -/
theorem transfer_model_invariants_witness :
    (List.range (numPlayers wInput)).countP (fun i => wVars.squad i 0) = 15 :=
  (transfer_model_invariants wInput wVars wConstraints (by decide) 0 (by decide)).1
